import Mathlib

set_option linter.unusedVariables false
set_option linter.deprecated false
set_option maxRecDepth 100000

/-!
Verification of the structural CUE editor (scripts/demo/lib/cue-edit.py).

Documents are modelled as lists of characters.  Each regular-expression
pattern of the source is embedded as a dedicated deterministic matcher
(all the patterns of the source are of the backtracking-free kind:
greedy character-class repetitions are always followed by a literal from
a disjoint character class, and the single lazy repetition is modelled
by a shortest-first scan).  Every function is written with structural or
fuel-based recursion so that all definitions evaluate inside the kernel.
-/

namespace CueEdit

/-- A document is an immutable sequence of characters (Python str). -/
abbrev Doc := List Char

/-- Python regex class \s for ASCII text. -/
def isPySpace (c : Char) : Bool :=
  c = ' ' || c = '\t' || c = '\n' || c = '\r' || c = '\x0b' || c = '\x0c'

/-- Python regex class \w for ASCII text. -/
def isWordChar (c : Char) : Bool :=
  c.isAlpha || c.isDigit || c = '_'

/-- Consume a literal; return the remaining suffix on success. -/
def mLit : Doc → Doc → Option Doc
  | [], l => some l
  | _ :: _, [] => none
  | p :: ps, c :: cs => if c = p then mLit ps cs else none

/-- Consume the maximal run of characters satisfying p (regex star). -/
def mStarRest (p : Char → Bool) : Doc → Doc
  | [] => []
  | c :: cs => if p c then mStarRest p cs else c :: cs

/-- Consume a maximal nonempty run of characters satisfying p (regex plus). -/
def mPlusRest (p : Char → Bool) : Doc → Option Doc
  | [] => none
  | c :: cs => if p c then some (mStarRest p cs) else none

/-- find_block_end, lines 99-123: depth counter, in-string flag, escape flag.
The index argument tracks the absolute position of the list head. -/
def find_block_end_aux : Doc → Nat → Int → Bool → Bool → Int
  | [], _, _, _, _ => -1
  | ch :: rest, i, depth, instr, esc =>
    if esc then find_block_end_aux rest (i + 1) depth instr false
    else if ch = '\\' then find_block_end_aux rest (i + 1) depth instr true
    else if ch = '"' then find_block_end_aux rest (i + 1) depth (!instr) esc
    else if instr then find_block_end_aux rest (i + 1) depth instr esc
    else if ch = '\x7b' then find_block_end_aux rest (i + 1) (depth + 1) instr esc
    else if ch = '\x7d' then
      if depth - 1 = 0 then (i : Int)
      else find_block_end_aux rest (i + 1) (depth - 1) instr esc
    else find_block_end_aux rest (i + 1) depth instr esc

/-- Position of the closing brace matching the opening brace at start_pos,
or -1 (NotFound) when the input is exhausted first. -/
def find_block_end (content : Doc) (start_pos : Nat) : Int :=
  find_block_end_aux (content.drop start_pos) start_pos 0 false false

/-- Normalise one Python slice endpoint (negative indices count from the end,
out-of-range indices clamp). -/
def pyBound (len : Nat) (i : Int) : Nat :=
  if i < 0 then (i + len).toNat else min i.toNat len

/-- Python slice content[a:b] with full negative-index semantics. -/
def pyslice (l : Doc) (a b : Int) : Doc :=
  (l.take (pyBound l.length b)).drop (pyBound l.length a)

/-- Python content[s:].index(c) : offset of the first occurrence of c at or
after s, relative to s. -/
def firstIndexFrom (content : Doc) (s : Nat) (c : Char) : Option Nat :=
  (content.drop s).findIdx? (fun ch => ch = c)

/-- re.search without anchors: scan positions left to right, return the
(start, end) pair of the first match.  The matcher returns the unconsumed
suffix on success. -/
def searchPlainAux (m : Doc → Option Doc) : Nat → Doc → Option (Nat × Nat)
  | i, [] =>
    match m [] with
    | some r => some (i, i + (([] : Doc).length - r.length))
    | none => none
  | i, ch :: rest =>
    match m (ch :: rest) with
    | some r => some (i, i + ((ch :: rest).length - r.length))
    | none => searchPlainAux m (i + 1) rest

def searchPlain (m : Doc → Option Doc) (l : Doc) : Option (Nat × Nat) :=
  searchPlainAux m 0 l

/-- re.search with re.MULTILINE and a leading ^ in the pattern: only
positions at the start of the string or just after a newline are tried. -/
def searchMLAux (m : Doc → Option Doc) : Bool → Nat → Doc → Option (Nat × Nat)
  | atLS, i, [] =>
    if atLS then
      match m [] with
      | some r => some (i, i + (([] : Doc).length - r.length))
      | none => none
    else none
  | atLS, i, ch :: rest =>
    if atLS then
      match m (ch :: rest) with
      | some r => some (i, i + ((ch :: rest).length - r.length))
      | none => searchMLAux m (ch = '\n') (i + 1) rest
    else searchMLAux m (ch = '\n') (i + 1) rest

def searchML (m : Doc → Option Doc) (l : Doc) : Option (Nat × Nat) :=
  searchMLAux m true 0 l

/-- re.sub scanning: at every position try the match-and-replace function
(which yields the number of consumed characters and the replacement text);
on a match emit the replacement and continue after the match, otherwise
emit the character and move on.  Fuel equals the initial length. -/
def globalSubAux (m : Doc → Option (Nat × Doc)) : Nat → Doc → Doc
  | 0, l => l
  | _ + 1, [] => []
  | fuel + 1, ch :: rest =>
    match m (ch :: rest) with
    | some (n, repl) =>
      if n = 0 then ch :: globalSubAux m fuel rest
      else repl ++ globalSubAux m fuel (List.drop (n - 1) rest)
    | none => ch :: globalSubAux m fuel rest

def globalSub (m : Doc → Option (Nat × Doc)) (l : Doc) : Doc :=
  globalSubAux m l.length l

/-- Matcher for the app-header pattern of lines 142, 205, 303, 724, 808:
env then colon, \s*, app then colon, \s*, literal apps. then \w+, \s*,
ampersand, \s*, opening brace.  Returns the unconsumed suffix. -/
def matchAppHeader (env app : Doc) (l : Doc) : Option Doc := do
  let r1 ← mLit env l
  let r2 ← mLit [':'] r1
  let r3 := mStarRest isPySpace r2
  let r4 ← mLit app r3
  let r5 ← mLit [':'] r4
  let r6 := mStarRest isPySpace r5
  let r7 ← mLit (("apps.").toList) r6
  let r8 ← mPlusRest isWordChar r7
  let r9 := mStarRest isPySpace r8
  let r10 ← mLit ['&'] r9
  let r11 := mStarRest isPySpace r10
  mLit ['\x7b'] r11

/-- Matcher for data_pattern (line 155): configMap colon, \s*, brace, \s*,
data colon, \s*, brace. -/
def matchDataHeader (l : Doc) : Option Doc := do
  let r1 ← mLit (("configMap:").toList) l
  let r2 := mStarRest isPySpace r1
  let r3 ← mLit ['\x7b'] r2
  let r4 := mStarRest isPySpace r3
  let r5 ← mLit (("data:").toList) r4
  let r6 := mStarRest isPySpace r5
  mLit ['\x7b'] r6

/-- Matcher for configmap_pattern (line 178). -/
def matchConfigMapHeader (l : Doc) : Option Doc := do
  let r1 ← mLit (("configMap:").toList) l
  let r2 := mStarRest isPySpace r1
  mLit ['\x7b'] r2

/-- Matcher for appconfig_pattern (lines 187, 327, 792). -/
def matchAppConfigHeader (l : Doc) : Option Doc := do
  let r1 ← mLit (("appConfig:").toList) l
  let r2 := mStarRest isPySpace r1
  mLit ['\x7b'] r2

/-- The quoted key-colon prefix: a double quote, the key, quote, colon. -/
def quotedKeyColon (key : Doc) : Doc :=
  '"' :: (key ++ ['"', ':'])

/-- Matcher for existing_pattern (line 163): quoted key colon, \s*, a
double-quoted value free of inner quotes. -/
def matchQuotedEntry (key : Doc) (l : Doc) : Option Doc := do
  let r1 ← mLit (quotedKeyColon key) l
  let r2 := mStarRest isPySpace r1
  let r3 ← mLit ['"'] r2
  let r4 := mStarRest (fun c => !(c = '"')) r3
  mLit ['"'] r4

/-- Match-and-replace for the substitution of lines 166-170 and 250-254:
group 1 is the quoted key colon together with the matched whitespace, the
old quoted value is replaced by the quoted new value. -/
def subQuotedEntry (key value : Doc) (l : Doc) : Option (Nat × Doc) := do
  let r1 ← mLit (quotedKeyColon key) l
  let r2 := mStarRest isPySpace r1
  let r3 ← mLit ['"'] r2
  let r4 := mStarRest (fun c => !(c = '"')) r3
  let r5 ← mLit ['"'] r4
  return (l.length - r5.length, l.take (l.length - r2.length) ++ ('"' :: (value ++ ['"'])))

/-- Match-and-replace for the removal pattern of line 202: group 1 is the
newline with the following whitespace, the whole match additionally takes
the quoted entry and all trailing whitespace; the match is replaced by
group 1. -/
def removeEntrySub (key : Doc) (l : Doc) : Option (Nat × Doc) := do
  let r0 ← mLit ['\n'] l
  let r1 := mStarRest isPySpace r0
  let r2 ← mLit (quotedKeyColon key) r1
  let r3 := mStarRest isPySpace r2
  let r4 ← mLit ['"'] r3
  let r5 := mStarRest (fun c => !(c = '"')) r4
  let r6 ← mLit ['"'] r5
  let r7 := mStarRest isPySpace r6
  return (l.length - r7.length, l.take (l.length - r1.length))

/-- add_env_configmap_entry, lines 126-195.  ValueError is modelled as
Except.error carrying the message text. -/
def add_env_configmap_entry (content : Doc) (env app key value : Doc) :
    Except Doc Doc :=
  match searchML (matchAppHeader env app) content with
  | none => .error (("Could not find app in environment").toList)
  | some (mStart, mEnd) =>
    let app_start := mEnd
    match firstIndexFrom content mStart '\x7b' with
    | none => .error (("substring not found").toList)
    | some off =>
      let app_block_end := find_block_end content (mStart + off)
      let app_block := pyslice content (app_start : Int) app_block_end
      match searchPlain matchDataHeader app_block with
      | some (_, dEnd) =>
        let insert_pos := app_start + dEnd
        if (searchPlain (matchQuotedEntry key) app_block).isSome then
          .ok (globalSub (subQuotedEntry key value) content)
        else
          let new_entry := '\n' :: (("\t\t\t\t").toList ++ quotedKeyColon key ++ (' ' :: ('"' :: (value ++ ['"']))))
          .ok (content.take insert_pos ++ new_entry ++ content.drop insert_pos)
      | none =>
        match searchPlain matchConfigMapHeader app_block with
        | some (_, cEnd) =>
          let insert_pos := app_start + cEnd
          let new_block := '\n' :: (("\t\t\tdata: \x7b\n\t\t\t\t").toList ++ quotedKeyColon key ++ (' ' :: ('"' :: (value ++ ('"' :: (("\n\t\t\t\x7d").toList))))))
          .ok (content.take insert_pos ++ new_block ++ content.drop insert_pos)
        | none =>
          match searchPlain matchAppConfigHeader app_block with
          | some (_, aEnd) =>
            let insert_pos := app_start + aEnd
            let new_block := '\n' :: (("\t\tconfigMap: \x7b\n\t\t\tdata: \x7b\n\t\t\t\t").toList ++ quotedKeyColon key ++ (' ' :: ('"' :: (value ++ ('"' :: (("\n\t\t\t\x7d\n\t\t\x7d").toList))))))
            .ok (content.take insert_pos ++ new_block ++ content.drop insert_pos)
          | none => .error (("Could not find appConfig block for app in environment").toList)

/-- remove_env_configmap_entry, lines 198-222.  The app block is located
first and the substitution is applied to that slice only; a missing app is
a silent no-op.  The ValueError of the .index call is modelled as
Except.error (unreachable when the header pattern matched). -/
def remove_env_configmap_entry (content : Doc) (env app key : Doc) :
    Except Doc Doc :=
  match searchML (matchAppHeader env app) content with
  | none => .ok content
  | some (mStart, _) =>
    let app_start := mStart
    match firstIndexFrom content app_start '\x7b' with
    | none => .error (("substring not found").toList)
    | some off =>
      let app_block_end := find_block_end content (app_start + off)
      let before := content.take app_start
      let app_block := pyslice content (app_start : Int) (app_block_end + 1)
      let after := pyslice content (app_block_end + 1) (content.length : Int)
      .ok (before ++ globalSub (removeEntrySub key) app_block ++ after)

/-- remove_app_configmap_entry, lines 280-283: the substitution runs over
the whole document; the app argument is not used at all. -/
def remove_app_configmap_entry (content : Doc) (app key : Doc) : Doc :=
  globalSub (removeEntrySub key) content

/-! ## Scalar formatting of set_env_field (lines 286-300) -/

/-- Python str.strip for ASCII whitespace. -/
def pyStrip (l : Doc) : Doc :=
  ((l.dropWhile isPySpace).reverse.dropWhile isPySpace).reverse

/-- Drop one optional leading sign. -/
def dropSign : Doc → Doc
  | '+' :: rest => rest
  | '-' :: rest => rest
  | l => l

/-- Continuation of a Python digit group: digits with single underscores
allowed only between digits. -/
def digitsUCont : Doc → Doc
  | '_' :: c :: cs => if c.isDigit then digitsUCont cs else '_' :: c :: cs
  | c :: cs => if c.isDigit then digitsUCont cs else c :: cs
  | [] => []

/-- A Python digit group: at least one digit, underscores between digits;
returns the unconsumed suffix. -/
def digitsURest : Doc → Option Doc
  | c :: cs => if c.isDigit then some (digitsUCont cs) else none
  | [] => none

/-- Acceptance of Python int(str): optional surrounding whitespace, one
optional sign, one digit group consuming the whole rest. -/
def pyIntAccepts (s : Doc) : Bool :=
  match digitsURest (dropSign (pyStrip s)) with
  | some [] => true
  | _ => false

/-- Optional exponent part of a Python float literal. -/
def expAccept : Doc → Bool
  | [] => true
  | e :: rest =>
    if e = 'e' || e = 'E' then
      match digitsURest (dropSign rest) with
      | some [] => true
      | _ => false
    else false

/-- Numeric (non inf/nan) body of a Python float literal. -/
def floatNumAccept : Doc → Bool
  | '.' :: rest =>
    (match digitsURest rest with
     | some r => expAccept r
     | none => false)
  | l =>
    match digitsURest l with
    | some ('.' :: rest2) =>
      (match digitsURest rest2 with
       | some r2 => expAccept r2
       | none => expAccept rest2)
    | some r => expAccept r
    | none => false

/-- Case-insensitive comparison with an ASCII word. -/
def ciEq (l : Doc) (w : Doc) : Bool :=
  l.map Char.toLower = w

/-- Acceptance of Python float(str). -/
def pyFloatAccepts (s : Doc) : Bool :=
  let t := dropSign (pyStrip s)
  ciEq t (("inf").toList) || ciEq t (("infinity").toList) || ciEq t (("nan").toList) ||
    floatNumAccept t

/-- The except-branch of the quoting decision, lines 296-300: lowercase
booleans stay unquoted, anything else is double quoted verbatim. -/
def formatFallback (value : Doc) : Doc :=
  let lower := value.map Char.toLower
  if lower = (("true").toList) || lower = (("false").toList) then lower
  else '"' :: (value ++ ['"'])

/-- The quoting decision of set_env_field, lines 288-300: values containing
a dot are probed with float(), all others with int(); on a parse failure the
boolean/string fallback applies. -/
def format_env_value (value : Doc) : Doc :=
  if value.contains '.' then
    (if pyFloatAccepts value then value else formatFallback value)
  else
    (if pyIntAccepts value then value else formatFallback value)

/-- Rendering rule in the words of the claim: a string that parses as an
integer or a float is unquoted, else the boolean rule, else quoted.  Stated
for comparison with format_env_value. -/
def render_scalar_claimed (value : Doc) : Doc :=
  if pyIntAccepts value || pyFloatAccepts value then value
  else formatFallback value

/-- Rendering rule actually implemented: the float probe runs only when the
value contains a dot, the int probe only when it does not. -/
def render_scalar_amended (value : Doc) : Doc :=
  if (value.contains '.' && pyFloatAccepts value) ||
     (!(value.contains '.') && pyIntAccepts value) then value
  else formatFallback value

/-! ## Environment-level labels: add_env_label (lines 708-802) -/

/-- Matcher for the labels opener inside labels_pattern (line 737). -/
def matchLabelsOpen (l : Doc) : Option Doc := do
  let r1 ← mLit (("labels:").toList) l
  let r2 := mStarRest isPySpace r1
  mLit ['\x7b'] r2

/-- The lazy repetition of labels_pattern: consume as few non-brace
characters as possible until the labels opener matches. -/
def lazyNonBraceScan : Nat → Doc → Option Doc
  | 0, _ => none
  | fuel + 1, l =>
    match matchLabelsOpen l with
    | some r => some r
    | none =>
      match l with
      | [] => none
      | ch :: rest => if ch = '\x7d' then none else lazyNonBraceScan fuel rest

/-- Matcher for labels_pattern (line 737): appConfig opener, then a lazy
run of non-brace characters, then the labels opener. -/
def matchLabelsLazy (l : Doc) : Option Doc := do
  let r1 ← mLit (("appConfig:").toList) l
  let r2 := mStarRest isPySpace r1
  let r3 ← mLit ['\x7b'] r2
  lazyNonBraceScan (r3.length + 1) r3

/-- Body of key_pattern_unquoted (line 753) after its word boundary. -/
def matchBareEntryCore (key : Doc) (l : Doc) : Option Doc := do
  let r1 ← mLit key l
  let r2 ← mLit [':'] r1
  let r3 := mStarRest isPySpace r2
  let r4 ← mLit ['"'] r3
  let r5 := mStarRest (fun c => !(c = '"')) r4
  mLit ['"'] r5

/-- re.search for a pattern starting with a word boundary: a position
qualifies when the word-ness of the previous character differs from the
word-ness of the current one. -/
def searchBdryAux (m : Doc → Option Doc) : Bool → Nat → Doc → Option (Nat × Nat)
  | _, _, [] => none
  | prevW, i, ch :: rest =>
    match (if prevW != isWordChar ch then m (ch :: rest) else none) with
    | some r => some (i, i + ((ch :: rest).length - r.length))
    | none => searchBdryAux m (isWordChar ch) (i + 1) rest

def searchBdry (m : Doc → Option Doc) (l : Doc) : Option (Nat × Nat) :=
  searchBdryAux m false 0 l

/-- Match-and-replace for the substitution of lines 765-769: group 1 is the
bare key with colon and whitespace, boundary handled by the caller. -/
def subBareEntry (key value : Doc) (l : Doc) : Option (Nat × Doc) := do
  let r1 ← mLit key l
  let r2 ← mLit [':'] r1
  let r3 := mStarRest isPySpace r2
  let r4 ← mLit ['"'] r3
  let r5 := mStarRest (fun c => !(c = '"')) r4
  let r6 ← mLit ['"'] r5
  return (l.length - r6.length, l.take (l.length - r3.length) ++ ('"' :: (value ++ ['"'])))

/-- re.sub for a pattern starting with a word boundary. -/
def globalSubBAux (m : Doc → Option (Nat × Doc)) : Nat → Bool → Doc → Doc
  | 0, _, l => l
  | _ + 1, _, [] => []
  | fuel + 1, prevW, ch :: rest =>
    match (if prevW != isWordChar ch then m (ch :: rest) else none) with
    | some (n, repl) =>
      if n = 0 then ch :: globalSubBAux m fuel (isWordChar ch) rest
      else
        let nextPrev := match (List.take n (ch :: rest)).getLast? with
          | some c => isWordChar c
          | none => prevW
        repl ++ globalSubBAux m fuel nextPrev (List.drop (n - 1) rest)
    | none => ch :: globalSubBAux m fuel (isWordChar ch) rest

def globalSubB (m : Doc → Option (Nat × Doc)) (l : Doc) : Doc :=
  globalSubBAux m l.length false l

/-- Matcher for the indent probe of lines 776, 640: a newline, at least one
tab, a word character. -/
def matchIndentProbe (l : Doc) : Option Doc := do
  let r1 ← mLit ['\n'] l
  let r2 ← mPlusRest (fun c => c = '\t') r1
  match r2 with
  | c :: rest => if isWordChar c then some rest else none
  | [] => none

/-- Indentation inferred from an existing entry line (group 1 of the probe),
with the call-site default when no entry is found. -/
def findIndent (dflt : Doc) (l : Doc) : Doc :=
  match searchPlain matchIndentProbe l with
  | some (s, e) => List.replicate (e - s - 2) '\t'
  | none => dflt

/-- Start offset of a match of the close-line pattern of lines 646, 780:
a newline, a run of tabs and the final closing brace, anchored at the end
of the string (or just before one trailing newline). -/
def closeLineStartAt (l : Doc) : Option Nat :=
  match l.reverse with
  | '\x7d' :: rest =>
    let k := (rest.takeWhile (fun c => c = '\t')).length
    (match rest.drop k with
     | '\n' :: _ => some (l.length - (k + 2))
     | _ => none)
  | _ => none

def closeLineMatch (l : Doc) : Option Nat :=
  match closeLineStartAt l,
      (match l.reverse with
       | '\n' :: _ => closeLineStartAt l.dropLast
       | _ => none) with
  | some a, some b => some (min a b)
  | some a, none => some a
  | none, some b => some b
  | none, none => none

/-- add_env_label, lines 708-802. -/
def add_env_label (content : Doc) (env app key value : Doc) : Except Doc Doc :=
  match searchML (matchAppHeader env app) content with
  | none => .error (("Could not find app in environment").toList)
  | some (mStart, mEnd) =>
    let app_start := mEnd
    match firstIndexFrom content mStart '\x7b' with
    | none => .error (("substring not found").toList)
    | some off =>
      let app_block_end := find_block_end content (mStart + off)
      let app_block := pyslice content (app_start : Int) app_block_end
      match searchPlain matchLabelsLazy app_block with
      | some (_, lEnd) =>
        let labels_block_start := app_start + lEnd - 1
        let labels_block_end := find_block_end content labels_block_start
        let labels_block := pyslice content (labels_block_start : Int) (labels_block_end + 1)
        if (searchPlain (matchQuotedEntry key) labels_block).isSome then
          .ok (content.take labels_block_start ++
               globalSub (subQuotedEntry key value) labels_block ++
               pyslice content (labels_block_end + 1) (content.length : Int))
        else if (searchBdry (matchBareEntryCore key) labels_block).isSome then
          .ok (content.take labels_block_start ++
               globalSubB (subBareEntry key value) labels_block ++
               pyslice content (labels_block_end + 1) (content.length : Int))
        else
          let quoted_key :=
            if key.contains '-' || key.contains '.' || key.contains '/' then
              '"' :: (key ++ ['"'])
            else key
          let indent := findIndent (("\t\t\t").toList) labels_block
          match closeLineMatch labels_block with
          | some insOff =>
            let insert_pos := labels_block_start + insOff
            let new_entry := '\n' :: (indent ++ quoted_key ++ (':' :: (' ' :: ('"' :: (value ++ ['"'])))))
            .ok (content.take insert_pos ++ new_entry ++ content.drop insert_pos)
          | none =>
            let new_entry := '\n' :: (indent ++ quoted_key ++ (':' :: (' ' :: ('"' :: (value ++ ('"' :: (("\n\t\t").toList)))))))
            .ok (pyslice content 0 labels_block_end ++ new_entry ++
                 pyslice content labels_block_end (content.length : Int))
      | none =>
        match searchPlain matchAppConfigHeader app_block with
        | some (_, aEnd) =>
          let insert_pos := app_start + aEnd
          let quoted_key :=
            if key.contains '-' || key.contains '.' || key.contains '/' then
              '"' :: (key ++ ['"'])
            else key
          let new_block := '\n' :: (("\t\tlabels: \x7b\n\t\t\t").toList ++ quoted_key ++
            (':' :: (' ' :: ('"' :: (value ++ ('"' :: (("\n\t\t\x7d").toList)))))))
          .ok (content.take insert_pos ++ new_block ++ content.drop insert_pos)
        | none => .error (("Could not find appConfig block for app in environment").toList)

/-! ## Platform-level labels: remove_platform_label (lines 660-701),
file plumbing stripped to the content transformation. -/

/-- Matcher for the defaultLabels opener (lines 604, 673). -/
def matchDefaultLabelsOpen (l : Doc) : Option Doc := do
  let r1 ← mLit (("defaultLabels:").toList) l
  let r2 := mStarRest isPySpace r1
  mLit ['\x7b'] r2

/-- Match-and-replace for pattern_quoted of line 688 (whole match dropped). -/
def removeQuotedLabelSub (key : Doc) (l : Doc) : Option (Nat × Doc) := do
  let r0 ← mLit ['\n'] l
  let r1 := mStarRest isPySpace r0
  let r2 ← mLit (quotedKeyColon key) r1
  let r3 := mStarRest isPySpace r2
  let r4 ← mLit ['"'] r3
  let r5 := mStarRest (fun c => !(c = '"')) r4
  let r6 ← mLit ['"'] r5
  return (l.length - r6.length, [])

/-- Tail \s*[^\n]+ of pattern_unquoted (line 689).  The greedy whitespace
run is followed by at least one non-newline character; when the run reaches
the end of the string the engine backtracks, which succeeds exactly when
the run ends in a non-newline character. -/
def matchWsNonNlTail (l : Doc) : Option Doc :=
  match mStarRest isPySpace l with
  | c :: cs => mPlusRest (fun ch => !(ch = '\n')) (c :: cs)
  | [] =>
    (match l.getLast? with
     | some c => if c = '\n' then none else some []
     | none => none)

/-- Match-and-replace for pattern_unquoted of line 689 (whole match dropped). -/
def removeBareLabelSub (key : Doc) (l : Doc) : Option (Nat × Doc) := do
  let r0 ← mLit ['\n'] l
  let r1 := mStarRest isPySpace r0
  let r2 ← mLit key r1
  let r3 ← mLit [':'] r2
  let r4 ← matchWsNonNlTail r3
  return (l.length - r4.length, [])

/-- remove_platform_label, lines 672-696: locate the defaultLabels block,
treat a -1 scanner result as a fatal error, otherwise drop the entry in
quoted form, falling back to the bare form when nothing changed. -/
def remove_platform_label_content (app_content key : Doc) : Except Doc Doc :=
  match searchPlain matchDefaultLabelsOpen app_content with
  | none => .error (("Could not find defaultLabels block in app.cue").toList)
  | some (_, e) =>
    let block_start := e - 1
    let block_end := find_block_end app_content block_start
    if block_end = -1 then
      .error (("Could not find closing brace for defaultLabels block").toList)
    else
      let dlb := pyslice app_content (block_start : Int) (block_end + 1)
      let nb := globalSub (removeQuotedLabelSub key) dlb
      let new_block := if nb = dlb then globalSub (removeBareLabelSub key) dlb else nb
      .ok (app_content.take block_start ++ new_block ++
           pyslice app_content (block_end + 1) (app_content.length : Int))

/-! ## Transactional write pipelines of main -/

/-- On-disk state of one target file together with its .bak sibling. -/
structure FsState where
  file : Doc
  backup : Option Doc
deriving Repr, DecidableEq

/-- Single-file tail of main, lines 1102-1137: apply the transform (a
ValueError exits with code 1 before any write), copy the original to the
backup, write the candidate, run the validator; on rejection move the
backup over the file, on success delete the backup. -/
def cue_edit_single_file (orig : Doc) (transform : Doc → Except Doc Doc)
    (validator : Doc → Bool) : FsState × Nat :=
  match transform orig with
  | .error _ => ({ file := orig, backup := none }, 1)
  | .ok newContent =>
    let afterBackup : FsState := { file := orig, backup := some orig }
    let afterWrite : FsState := { afterBackup with file := newContent }
    if validator afterWrite.file then
      ({ afterWrite with backup := none }, 0)
    else
      match afterWrite.backup with
      | some b => ({ file := b, backup := none }, 1)
      | none => ({ afterWrite with backup := none }, 1)

/-- Steps of the two-file platform-annotation branch of main. -/
inductive TxEvent where
  | backupApp | backupDeploy | writeApp | writeDeploy | runValidator
  | unlinkBackups | restoreApp | restoreDeploy
deriving Repr, DecidableEq

/-- On-disk state of the two coordinated files and their backups. -/
structure FsState2 where
  appFile : Doc
  deployFile : Doc
  appBackup : Option Doc
  deployBackup : Option Doc
deriving Repr, DecidableEq

/-- Two-file branch of main, lines 952-987: back up both files, write both
candidates, then run the validator once; on rejection move both backups
back, on success delete both backups.  The event list records the order of
the steps. -/
def platform_annotation_write_validate (origApp origDeploy newApp newDeploy : Doc)
    (validator : Doc → Doc → Bool) : FsState2 × Nat × List TxEvent :=
  let s0 : FsState2 :=
    { appFile := origApp, deployFile := origDeploy, appBackup := none, deployBackup := none }
  let s1 := { s0 with appBackup := some s0.appFile }
  let s2 := { s1 with deployBackup := some s1.deployFile }
  let s3 := { s2 with appFile := newApp }
  let s4 := { s3 with deployFile := newDeploy }
  let pre : List TxEvent :=
    [.backupApp, .backupDeploy, .writeApp, .writeDeploy, .runValidator]
  if validator s4.appFile s4.deployFile then
    ({ s4 with appBackup := none, deployBackup := none }, 0, pre ++ [.unlinkBackups])
  else
    let r1 := { s4 with appFile := (s4.appBackup).getD s4.appFile, appBackup := none }
    let r2 := { r1 with deployFile := (r1.deployBackup).getD r1.deployFile, deployBackup := none }
    (r2, 1, pre ++ [.restoreApp, .restoreDeploy])

/-! ## Concrete documents used in the claim theorems -/

def envDev : Doc := ("dev").toList
def appExample : Doc := ("exampleApp").toList
def keyK : Doc := ("k").toList

def docC1dev : Doc := ("dev: exampleApp: apps.exampleApp & \x7b\n\tappConfig: \x7b\n\t\tconfigMap: \x7b\n\t\t\tdata: \x7b\n\t\t\t\t\"k\": \"x\"\n\t\t\t\x7d\n\t\t\x7d\n\t\x7d\n\x7d\n").toList
def docC1stage : Doc := ("stage: exampleApp: apps.exampleApp & \x7b\n\tappConfig: \x7b\n\t\tconfigMap: \x7b\n\t\t\tdata: \x7b\n\t\t\t\t\"k\": \"x\"\n\t\t\t\x7d\n\t\t\x7d\n\t\x7d\n\x7d\n").toList
def docC1devEdited : Doc := ("dev: exampleApp: apps.exampleApp & \x7b\n\tappConfig: \x7b\n\t\tconfigMap: \x7b\n\t\t\tdata: \x7b\n\t\t\t\t\"k\": \"v2\"\n\t\t\t\x7d\n\t\t\x7d\n\t\x7d\n\x7d\n").toList
def docC1stageEdited : Doc := ("stage: exampleApp: apps.exampleApp & \x7b\n\tappConfig: \x7b\n\t\tconfigMap: \x7b\n\t\t\tdata: \x7b\n\t\t\t\t\"k\": \"v2\"\n\t\t\t\x7d\n\t\t\x7d\n\t\x7d\n\x7d\n").toList
def docC1removed : Doc := ("dev: exampleApp: apps.exampleApp & \x7b\n\tappConfig: \x7b\n\t\tconfigMap: \x7b\n\t\t\tdata: \x7b\n\t\t\t\t\x7d\n\t\t\x7d\n\t\x7d\n\x7d\nstage: exampleApp: apps.exampleApp & \x7b\n\tappConfig: \x7b\n\t\tconfigMap: \x7b\n\t\t\tdata: \x7b\n\t\t\t\t\x7d\n\t\t\x7d\n\t\x7d\n\x7d\n").toList
def docC3block : Doc := ("dev: exampleApp: apps.exampleApp & \x7b\n\tappConfig: \x7b\n\t\tconfigMap: \x7b\n\t\t\tdata: \x7b\n\t\t\t\x7d\n\t\t\x7d\n\t\x7d\n\x7d\n").toList
def docC3edited : Doc := ("dev: exampleApp: apps.exampleApp & \x7b\n\tappConfig: \x7b\n\t\tconfigMap: \x7b\n\t\t\tdata: \x7b\n\t\t\t\t\"k\": \"v\"\n\t\t\t\x7d\n\t\t\x7d\n\t\x7d\n\x7d\ndev: exampleApp: apps.exampleApp & \x7b\n\tappConfig: \x7b\n\t\tconfigMap: \x7b\n\t\t\tdata: \x7b\n\t\t\t\x7d\n\t\t\x7d\n\t\x7d\n\x7d\n").toList
def docC5 : Doc := ("dev: exampleApp: apps.exampleApp & \x7b\n\tappConfig: \x7b\n\t\tconfigMap: \x7b\n\t\t\tdata: \x7b\n\t\t\t\t\"other\": \"1\"\n\t\t\t\x7d\n\t\t\x7d\n\t\x7d\n\x7d\nstage: exampleApp: apps.exampleApp & \x7b\n\tappConfig: \x7b\n\t\tconfigMap: \x7b\n\t\t\tdata: \x7b\n\t\t\t\t\"k\": \"x\"\n\t\t\t\x7d\n\t\t\x7d\n\t\x7d\n\x7d\n").toList
def docC5once : Doc := ("dev: exampleApp: apps.exampleApp & \x7b\n\tappConfig: \x7b\n\t\tconfigMap: \x7b\n\t\t\tdata: \x7b\n\t\t\t\t\"k\": \"v\"\n\t\t\t\t\"other\": \"1\"\n\t\t\t\x7d\n\t\t\x7d\n\t\x7d\n\x7d\nstage: exampleApp: apps.exampleApp & \x7b\n\tappConfig: \x7b\n\t\tconfigMap: \x7b\n\t\t\tdata: \x7b\n\t\t\t\t\"k\": \"x\"\n\t\t\t\x7d\n\t\t\x7d\n\t\x7d\n\x7d\n").toList
def docC5twice : Doc := ("dev: exampleApp: apps.exampleApp & \x7b\n\tappConfig: \x7b\n\t\tconfigMap: \x7b\n\t\t\tdata: \x7b\n\t\t\t\t\"k\": \"v\"\n\t\t\t\t\"other\": \"1\"\n\t\t\t\x7d\n\t\t\x7d\n\t\x7d\n\x7d\nstage: exampleApp: apps.exampleApp & \x7b\n\tappConfig: \x7b\n\t\tconfigMap: \x7b\n\t\t\tdata: \x7b\n\t\t\t\t\"k\": \"v\"\n\t\t\t\x7d\n\t\t\x7d\n\t\x7d\n\x7d\n").toList
def docC6 : Doc := ("dev: exampleApp: apps.exampleApp & \x7b\n\tappConfig: \x7b\n\t\tother: \x7b\n\t\t\t\"k\": \"x\"\n\t\t\x7d\n\t\tconfigMap: \x7b\n\t\t\tdata: \x7b\n\t\t\t\x7d\n\t\t\x7d\n\t\x7d\n\x7d\n").toList
def docC6up : Doc := ("dev: exampleApp: apps.exampleApp & \x7b\n\tappConfig: \x7b\n\t\tother: \x7b\n\t\t\t\"k\": \"v\"\n\t\t\x7d\n\t\tconfigMap: \x7b\n\t\t\tdata: \x7b\n\t\t\t\x7d\n\t\t\x7d\n\t\x7d\n\x7d\n").toList
def docC6rt : Doc := ("dev: exampleApp: apps.exampleApp & \x7b\n\tappConfig: \x7b\n\t\tother: \x7b\n\t\t\t\x7d\n\t\tconfigMap: \x7b\n\t\t\tdata: \x7b\n\t\t\t\x7d\n\t\t\x7d\n\t\x7d\n\x7d\n").toList
def docC8 : Doc := ("dev: exampleApp: apps.exampleApp & \x7b\n\tappConfig: \x7b\n\t\tconfigMap: \x7b\n\t\t\tdata: \x7b\n\t\t\t\tcache: \"x\"\n\t\t\t\x7d\n\t\t\x7d\n\t\x7d\n\x7d\n").toList
def docC8dup : Doc := ("dev: exampleApp: apps.exampleApp & \x7b\n\tappConfig: \x7b\n\t\tconfigMap: \x7b\n\t\t\tdata: \x7b\n\t\t\t\t\"cache\": \"v\"\n\t\t\t\tcache: \"x\"\n\t\t\t\x7d\n\t\t\x7d\n\t\x7d\n\x7d\n").toList
def docLblBare : Doc := ("dev: exampleApp: apps.exampleApp & \x7b\n\tappConfig: \x7b\n\t\tlabels: \x7b\n\t\t\tteam: \"old\"\n\t\t\x7d\n\t\x7d\n\x7d\n").toList
def docLblBareRes : Doc := ("dev: exampleApp: apps.exampleApp & \x7b\n\tappConfig: \x7b\n\t\tlabels: \x7b\n\t\t\tteam: \"new\"\n\t\t\x7d\n\t\x7d\n\x7d\n").toList
def docLblQuot : Doc := ("dev: exampleApp: apps.exampleApp & \x7b\n\tappConfig: \x7b\n\t\tlabels: \x7b\n\t\t\t\"team-x\": \"old\"\n\t\t\x7d\n\t\x7d\n\x7d\n").toList
def docLblQuotRes : Doc := ("dev: exampleApp: apps.exampleApp & \x7b\n\tappConfig: \x7b\n\t\tlabels: \x7b\n\t\t\t\"team-x\": \"new\"\n\t\t\x7d\n\t\x7d\n\x7d\n").toList
def docC9bad : Doc := ("y: 2\ndev: exampleApp: apps.exampleApp & \x7b\n").toList
def docC9mangled : Doc := ("y: 2\ny: 2\ndev: exampleApp: apps.exampleApp & \x7b\n").toList
def docC10bad : Doc := ("x: 1\ndev: exampleApp: apps.exampleApp & \x7b\n").toList
def docC10mangled : Doc := ("x: 1\nx: 1\ndev: exampleApp: apps.exampleApp & \x7b\n").toList
def docC10ok : Doc := ("dev: exampleApp: apps.exampleApp & \x7b\n\tappConfig: \x7b\n\t\tconfigMap: \x7b\n\t\t\tdata: \x7b\n\t\t\t\t\"other\": \"1\"\n\t\t\t\x7d\n\t\t\x7d\n\t\x7d\n\x7d\n").toList

/-- Decidable absence of any match of a match-and-replace function inside
a document (checked at every suffix). -/
def noSubMatch (m : Doc → Option (Nat × Doc)) (l : Doc) : Bool :=
  (List.range l.length).all (fun i => (m (l.drop i)).isNone)

/-- A position qualifies for the multiline app-header search: start of the
document or just after a newline, and the header matcher succeeds there. -/
def appHeaderAtB (c env app : Doc) (j : Nat) : Bool :=
  (decide (j = 0) || (c.get? (j - 1) == some '\n')) &&
    (matchAppHeader env app (c.drop j)).isSome

/-! ## Helper lemmas -/

theorem find_block_end_aux_spec (l : Doc) :
    ∀ (i : Nat) (depth : Int) (instr esc : Bool),
      find_block_end_aux l i depth instr esc = -1 ∨
      ∃ j : Nat, find_block_end_aux l i depth instr esc = (j : Int) ∧
        i ≤ j ∧ j < i + l.length ∧ l.get? (j - i) = some '\x7d' := by
  induction l with
  | nil => intro i depth instr esc; left; rfl
  | cons ch rest ih =>
    intro i depth instr esc
    have step : ∀ (d : Int) (s e : Bool),
        find_block_end_aux rest (i + 1) d s e = -1 ∨
        ∃ j : Nat, find_block_end_aux rest (i + 1) d s e = (j : Int) ∧
          i ≤ j ∧ j < i + (ch :: rest).length ∧ (ch :: rest).get? (j - i) = some '\x7d' := by
      intro d s e
      rcases ih (i + 1) d s e with h | ⟨j, hj, h1, h2, h3⟩
      · left; exact h
      · right
        refine ⟨j, hj, by omega, ?_, ?_⟩
        · simp only [List.length_cons]; omega
        · have he : j - i = (j - (i + 1)) + 1 := by omega
          rw [he]; exact h3
    simp only [find_block_end_aux]
    split
    · exact step depth instr false
    · split
      · exact step depth instr true
      · split
        · exact step depth (!instr) esc
        · split
          · exact step depth instr esc
          · split
            · exact step (depth + 1) instr esc
            · split
              · split
                · right
                  refine ⟨i, rfl, le_refl i, ?_, ?_⟩
                  · simp only [List.length_cons]; omega
                  · simp only [Nat.sub_self]
                    rename_i hbrace _
                    rw [hbrace]
                    rfl
                · exact step (depth - 1) instr esc
              · exact step depth instr esc

theorem find_block_end_spec (c : Doc) (s : Nat) :
    find_block_end c s = -1 ∨
    ∃ j : Nat, find_block_end c s = (j : Int) ∧ s ≤ j ∧ j < c.length ∧
      c.get? j = some '\x7d' := by
  rcases find_block_end_aux_spec (c.drop s) s 0 false false with h | ⟨j, hj, h1, h2, h3⟩
  · left; exact h
  · right
    refine ⟨j, hj, h1, ?_, ?_⟩
    · have hl := List.length_drop s c
      omega
    · have hd : (c.drop s).get? (j - s) = c.get? (s + (j - s)) := List.get?_drop c s (j - s)
      rw [hd] at h3
      have : s + (j - s) = j := by omega
      rwa [this] at h3

theorem globalSubAux_id (m : Doc → Option (Nat × Doc)) :
    ∀ (fuel : Nat) (l : Doc), (∀ i, i < l.length → m (l.drop i) = none) →
      globalSubAux m fuel l = l := by
  intro fuel
  induction fuel with
  | zero => intro l h; rfl
  | succ n ih =>
    intro l h
    match l with
    | [] => rfl
    | ch :: rest =>
      have h0 : m (ch :: rest) = none := by
        have := h 0 (by simp)
        simpa using this
      have hrest : globalSubAux m n rest = rest := by
        apply ih
        intro i hi
        have := h (i + 1) (by simp only [List.length_cons]; omega)
        exact this
      simp only [globalSubAux, h0, hrest]

theorem noSubMatch_spec (m : Doc → Option (Nat × Doc)) (l : Doc)
    (h : noSubMatch m l = true) : ∀ i, i < l.length → m (l.drop i) = none := by
  intro i hi
  have := (List.all_eq_true.mp h) i (List.mem_range.mpr hi)
  simpa [Option.isNone_iff_eq_none] using this

theorem globalSub_id (m : Doc → Option (Nat × Doc)) (l : Doc)
    (h : noSubMatch m l = true) : globalSub m l = l :=
  globalSubAux_id m l.length l (noSubMatch_spec m l h)

theorem take_slice_drop (l : Doc) (s e : Nat) (h1 : s ≤ e) :
    l.take s ++ (l.take e).drop s ++ l.drop e = l := by
  have h3 : (l.take e).take s = l.take s := by
    rw [List.take_take, min_eq_left h1]
  rw [← h3, List.take_append_drop, List.take_append_drop]

theorem pyslice_natCast (l : Doc) (a b : Nat) (ha : a ≤ l.length) (hb : b ≤ l.length) :
    pyslice l (a : Int) (b : Int) = (l.take b).drop a := by
  unfold pyslice pyBound
  have h1 : ¬((a : Int) < 0) := by omega
  have h2 : ¬((b : Int) < 0) := by omega
  simp only [h1, h2, if_false, Int.toNat_natCast, min_eq_left ha, min_eq_left hb]

theorem searchPlainAux_suffix_match (m : Doc → Option Doc) :
    ∀ (l : Doc) (i r e : Nat), searchPlainAux m i l = some (r, e) →
      ∃ k, (m (l.drop k)).isSome = true := by
  intro l
  induction l with
  | nil =>
    intro i r e h
    simp only [searchPlainAux] at h
    cases hm : m [] with
    | none => rw [hm] at h; cases h
    | some x => exact ⟨0, by simp [hm]⟩
  | cons ch rest ih =>
    intro i r e h
    simp only [searchPlainAux] at h
    cases hm : m (ch :: rest) with
    | some x => exact ⟨0, by simp [hm]⟩
    | none =>
      rw [hm] at h
      obtain ⟨k, hk⟩ := ih (i + 1) r e h
      exact ⟨k + 1, hk⟩

theorem mLit_cons_inv {a : Char} {p l r : Doc} (h : mLit (a :: p) l = some r) :
    ∃ t, l = a :: t := by
  cases l with
  | nil => simp [mLit] at h
  | cons c cs =>
    by_cases hc : c = a
    · exact ⟨cs, by rw [hc]⟩
    · simp [mLit, hc] at h

theorem searchMLAux_first (m : Doc → Option Doc) (c : Doc) :
    ∀ (l : Doc) (i : Nat) (atLS : Bool),
      l = c.drop i →
      atLS = (decide (i = 0) || (c.get? (i - 1) == some '\n')) →
      ∀ r e, searchMLAux m atLS i l = some (r, e) →
        ((decide (r = 0) || (c.get? (r - 1) == some '\n')) && (m (c.drop r)).isSome) = true ∧
        ∀ j, i ≤ j → j < r →
          ((decide (j = 0) || (c.get? (j - 1) == some '\n')) && (m (c.drop j)).isSome) = false := by
  intro l
  induction l with
  | nil =>
    intro i atLS hl hLS r e h
    cases atLS with
    | false =>
      simp only [searchMLAux, Bool.false_eq_true, if_false] at h
      exact Option.noConfusion h
    | true =>
      simp only [searchMLAux, if_true] at h
      cases hm : m [] with
      | none => rw [hm] at h; exact Option.noConfusion h
      | some x =>
        rw [hm] at h
        simp only [Option.some.injEq, Prod.mk.injEq] at h
        obtain ⟨hri, he⟩ := h
        subst hri
        constructor
        · rw [← hLS, ← hl, hm]
          rfl
        · intro j hij hjr; omega
  | cons ch rest ih =>
    intro i atLS hl hLS r e h
    have hget : c.get? i = some ch := by
      have h0 := List.get?_drop c i 0
      rw [← hl] at h0
      simpa using h0.symm
    have hdrop : c.drop (i + 1) = rest := by
      have h0 := List.tail_drop c i
      rw [← hl] at h0
      simpa using h0.symm
    have hLS2 : (decide (ch = '\n') : Bool) =
        (decide (i + 1 = 0) || (c.get? (i + 1 - 1) == some '\n')) := by
      simp only [Nat.add_sub_cancel, hget]
      by_cases hc : ch = '\n' <;> simp [hc]
    cases atLS with
    | false =>
      simp only [searchMLAux, Bool.false_eq_true, if_false] at h
      obtain ⟨concl1, concl2⟩ := ih (i + 1) (decide (ch = '\n')) hdrop.symm hLS2 r e h
      refine ⟨concl1, ?_⟩
      intro j hij hjr
      by_cases hji : j = i
      · subst hji
        rw [← hLS]
        rfl
      · exact concl2 j (by omega) hjr
    | true =>
      simp only [searchMLAux, if_true] at h
      cases hm : m (ch :: rest) with
      | some x =>
        rw [hm] at h
        simp only [Option.some.injEq, Prod.mk.injEq] at h
        obtain ⟨hri, he⟩ := h
        subst hri
        constructor
        · rw [← hLS, ← hl, hm]
          rfl
        · intro j hij hjr; omega
      | none =>
        rw [hm] at h
        obtain ⟨concl1, concl2⟩ := ih (i + 1) (decide (ch = '\n')) hdrop.symm hLS2 r e h
        refine ⟨concl1, ?_⟩
        intro j hij hjr
        by_cases hji : j = i
        · subst hji
          rw [← hl, hm]
          simp
        · exact concl2 j (by omega) hjr

theorem searchML_first (m : Doc → Option Doc) (c : Doc) (r e : Nat)
    (h : searchML m c = some (r, e)) :
    ((decide (r = 0) || (c.get? (r - 1) == some '\n')) && (m (c.drop r)).isSome) = true ∧
    ∀ j, j < r →
      ((decide (j = 0) || (c.get? (j - 1) == some '\n')) && (m (c.drop j)).isSome) = false := by
  obtain ⟨h1, h2⟩ := searchMLAux_first m c c 0 true (by simp) (by simp) r e h
  exact ⟨h1, fun j hj => h2 j (Nat.zero_le j) hj⟩

/-! ## Claim theorems -/

/-- C1: failing evaluation for the scoping invariant.  An env-configmap
upsert addressed to the dev block also rewrites the identical entry of the
sibling stage block (the replacement substitution runs over the whole
document), and remove_app_configmap_entry removes the entry from every
block even when the app argument matches no block at all: bytes outside
the addressed block change. -/
theorem c1_env_configmap_edit_escapes_block :
    add_env_configmap_entry (docC1dev ++ docC1stage) envDev appExample keyK (("v2").toList)
      = .ok (docC1devEdited ++ docC1stageEdited) ∧
    docC1stageEdited ≠ docC1stage ∧
    remove_app_configmap_entry (docC1dev ++ docC1stage) (("otherApp").toList) keyK
      = docC1removed ∧
    docC1removed ≠ docC1dev ++ docC1stage :=
  ⟨by rfl, by decide, by rfl, by decide⟩

/-- C2: when the transform produced a candidate and the validator rejects
it, the single-file pipeline leaves the file at its original bytes, leaves
no backup behind, and exits with code 1. -/
theorem c2_rollback_on_validation_failure (orig newContent : Doc)
    (transform : Doc → Except Doc Doc) (validator : Doc → Bool)
    (hT : transform orig = .ok newContent) (hV : validator newContent = false) :
    cue_edit_single_file orig transform validator
      = ({ file := orig, backup := none }, 1) := by
  simp [cue_edit_single_file, hT, hV]

/-- Witness for C2 at a concrete file, transform and failing validator. -/
theorem c2_rollback_witness :
    cue_edit_single_file (("a").toList) (fun d => .ok ('b' :: d)) (fun _ => false)
      = ({ file := ("a").toList, backup := none }, 1) :=
  c2_rollback_on_validation_failure _ _ _ _ rfl rfl

/-- C3: counterexample — the document contains two blocks matching the
dev/exampleApp header (at offsets 0 and 91), yet the upsert succeeds and
edits the first match; no ambiguity error is raised. -/
theorem c3_counterexample_first_match_edited :
    appHeaderAtB (docC3block ++ docC3block) envDev appExample 0 = true ∧
    appHeaderAtB (docC3block ++ docC3block) envDev appExample 91 = true ∧
    add_env_configmap_entry (docC3block ++ docC3block) envDev appExample keyK
      (("v").toList) = .ok docC3edited :=
  ⟨by rfl, by rfl, by rfl⟩

/-- C3 amended: the block search returns the first position (in document
order) at which the line-anchored header pattern matches; a match at any
earlier position is impossible, and later matches are silently ignored
rather than reported as an ambiguity. -/
theorem c3_amended_first_match_wins (c env app : Doc) (r e : Nat)
    (h : searchML (matchAppHeader env app) c = some (r, e)) :
    appHeaderAtB c env app r = true ∧
    ∀ j, j < r → appHeaderAtB c env app j = false := by
  obtain ⟨h1, h2⟩ := searchML_first (matchAppHeader env app) c r e h
  exact ⟨h1, h2⟩

/-- Witness for the amended C3 at the two-block document. -/
theorem c3_amended_witness :
    appHeaderAtB (docC3block ++ docC3block) envDev appExample 0 = true ∧
    ∀ j, j < 0 → appHeaderAtB (docC3block ++ docC3block) envDev appExample j = false :=
  c3_amended_first_match_wins (docC3block ++ docC3block) envDev appExample 0 36 (by rfl)

/-- C4: counterexample — the value 1e5 parses as a Python float, so the
claim renders it unquoted, but the code only probes float() when the value
contains a dot and therefore renders the quoted string. -/
theorem c4_counterexample_exponent_float_quoted :
    pyFloatAccepts (("1e5").toList) = true ∧
    render_scalar_claimed (("1e5").toList) = ("1e5").toList ∧
    format_env_value (("1e5").toList) = ('"' :: (("1e5").toList ++ ['"'])) ∧
    format_env_value (("1e5").toList) ≠ render_scalar_claimed (("1e5").toList) :=
  ⟨by rfl, by rfl, by rfl, by decide⟩

/-- C4 amended: a value containing a dot is rendered unquoted exactly when
it parses as a float, a value without a dot exactly when it parses as an
integer; otherwise the case-insensitive true/false rule applies and
anything else is double quoted.  The three concrete scenario renderings of
the specification hold. -/
theorem c4_amended_scalar_inference :
    (∀ v : Doc, format_env_value v = render_scalar_amended v) ∧
    format_env_value (("2").toList) = ("2").toList ∧
    format_env_value (("true").toList) = ("true").toList ∧
    format_env_value (("us-east").toList) = ('"' :: (("us-east").toList ++ ['"'])) := by
  refine ⟨?_, by rfl, by rfl, by rfl⟩
  intro v
  unfold format_env_value render_scalar_amended
  by_cases h1 : v.contains '.' <;> by_cases h2 : pyFloatAccepts v <;>
    by_cases h3 : pyIntAccepts v <;> simp [h1, h2, h3]

/-- C5: failing evaluation for upsert idempotence.  The first upsert
inserts the key into the dev block; the second finds it there and runs the
unscoped replacement substitution, which also rewrites the different value
of the same key in the sibling stage block, so upsert twice differs from
upsert once. -/
theorem c5_upsert_not_idempotent :
    add_env_configmap_entry docC5 envDev appExample keyK (("v").toList) = .ok docC5once ∧
    add_env_configmap_entry docC5once envDev appExample keyK (("v").toList) = .ok docC5twice ∧
    docC5twice ≠ docC5once :=
  ⟨by rfl, by rfl, by decide⟩

/-- C6: failing evaluation for the add/remove round trip.  The key is
absent from the configMap data block but present in another sub-block of
the same app; the upsert then replaces that other entry instead of
inserting, and the remove deletes it, so the round trip loses the entry
entirely (not a whitespace difference: the key occurs nowhere afterwards). -/
theorem c6_add_remove_roundtrip_fails :
    add_env_configmap_entry docC6 envDev appExample keyK (("v").toList) = .ok docC6up ∧
    remove_env_configmap_entry docC6up envDev appExample keyK = .ok docC6rt ∧
    docC6rt ≠ docC6 ∧
    (searchPlain (matchQuotedEntry keyK) docC6rt).isSome = false :=
  ⟨by rfl, by rfl, by decide, by rfl⟩

/-- C7: in the two-file platform-annotation pipeline the validator step
comes only after both writes in the event order; the final state is either
both candidates (validator passed) or both originals (validator failed),
with no backups left, and the exit code reports the outcome — a state with
only one of the two files changed is never the final state. -/
theorem c7_two_file_atomicity (origApp origDeploy newApp newDeploy : Doc)
    (validator : Doc → Doc → Bool) :
    ((platform_annotation_write_validate origApp origDeploy newApp newDeploy validator).2.2).take 5
        = [.backupApp, .backupDeploy, .writeApp, .writeDeploy, .runValidator] ∧
    (platform_annotation_write_validate origApp origDeploy newApp newDeploy validator).1
        = (if validator newApp newDeploy then
            { appFile := newApp, deployFile := newDeploy,
              appBackup := none, deployBackup := none }
           else
            { appFile := origApp, deployFile := origDeploy,
              appBackup := none, deployBackup := none }) ∧
    (platform_annotation_write_validate origApp origDeploy newApp newDeploy validator).2.1
        = (if validator newApp newDeploy then 0 else 1) ∧
    (((platform_annotation_write_validate origApp origDeploy newApp newDeploy validator).1.appFile = newApp ∧
      (platform_annotation_write_validate origApp origDeploy newApp newDeploy validator).1.deployFile = newDeploy) ∨
     ((platform_annotation_write_validate origApp origDeploy newApp newDeploy validator).1.appFile = origApp ∧
      (platform_annotation_write_validate origApp origDeploy newApp newDeploy validator).1.deployFile = origDeploy)) := by
  by_cases h : validator newApp newDeploy <;>
    simp [platform_annotation_write_validate, h]

/-- C8: counterexample — the data block holds the key in bare identifier
form, the bare-form matcher of the env-label family finds it, yet the
env-configmap upsert checks only the quoted form, misses it and inserts a
quoted duplicate next to the bare entry. -/
theorem c8_counterexample_bare_key_duplicated :
    (searchBdry (matchBareEntryCore (("cache").toList)) docC8).isSome = true ∧
    add_env_configmap_entry docC8 envDev appExample (("cache").toList) (("v").toList)
      = .ok docC8dup :=
  ⟨by rfl, by rfl⟩

/-- C8 amended: only the env-label upsert recognises both key forms — it
replaces in place whether the existing entry is bare or quoted — while the
env-configmap existing-key search can only ever fire on text containing a
double quote, so a bare-form entry never triggers its replacement path. -/
theorem c8_amended_key_forms :
    (∀ (block key : Doc),
      (searchPlain (matchQuotedEntry key) block).isSome = true → '"' ∈ block) ∧
    add_env_label docLblBare envDev appExample (("team").toList) (("new").toList)
      = .ok docLblBareRes ∧
    add_env_label docLblQuot envDev appExample (("team-x").toList) (("new").toList)
      = .ok docLblQuotRes := by
  refine ⟨?_, by rfl, by rfl⟩
  intro block key h
  obtain ⟨⟨r, e⟩, hre⟩ := Option.isSome_iff_exists.mp h
  obtain ⟨k, hk⟩ := searchPlainAux_suffix_match (matchQuotedEntry key) block 0 r e hre
  obtain ⟨v, hv⟩ := Option.isSome_iff_exists.mp hk
  have hfirst : ∃ r1, mLit (quotedKeyColon key) (block.drop k) = some r1 := by
    unfold matchQuotedEntry at hv
    cases hm : mLit (quotedKeyColon key) (block.drop k) with
    | none => rw [hm] at hv; simp at hv
    | some r1 => exact ⟨r1, rfl⟩
  obtain ⟨r1, hr1⟩ := hfirst
  have hr1' : mLit ('"' :: (key ++ ['"', ':'])) (block.drop k) = some r1 := hr1
  obtain ⟨t, ht⟩ := mLit_cons_inv hr1'
  have hmem : '"' ∈ block.drop k := ht ▸ List.mem_cons_self '"' t
  exact List.drop_subset k block hmem

/-- Witness for the amended C8: a block that the quoted-form search
accepts indeed contains a double quote. -/
theorem c8_amended_witness : '"' ∈ (("\"x\": \"1\"").toList) :=
  c8_amended_key_forms.1 (("\"x\": \"1\"").toList) (("x").toList) (by rfl)

/-- C9: counterexample — on a truncated document the scanner reports -1,
but remove_env_configmap_entry does not treat that as fatal: it uses -1 as
a Python slice index and returns a mangled document (the prefix before the
header is duplicated), an edit performed from a NotFound result. -/
theorem c9_counterexample_notfound_not_fatal :
    find_block_end docC9bad 40 = -1 ∧
    remove_env_configmap_entry docC9bad envDev appExample (("zz").toList)
      = .ok docC9mangled ∧
    docC9mangled ≠ docC9bad :=
  ⟨by rfl, by rfl, by decide⟩

/-- C9 amended: the scanner itself keeps its contract — it returns either
-1 or the offset of an actual closing brace — and the platform-label
caller does treat -1 as fatal, raising an error on an unterminated
defaultLabels block; the environment-scoped callers do not check. -/
theorem c9_amended_scanner_notfound :
    (∀ (c : Doc) (s : Nat), find_block_end c s = -1 ∨
       ∃ j : Nat, find_block_end c s = (j : Int) ∧ s ≤ j ∧ j < c.length ∧
         c.get? j = some '\x7d') ∧
    remove_platform_label_content (("defaultLabels: \x7b").toList) (("x").toList)
      = .error (("Could not find closing brace for defaultLabels block").toList) :=
  ⟨find_block_end_spec, by rfl⟩

/-- C10: counterexample — the key occurs nowhere in the document, yet
remove returns a changed document: the app header matches but its block is
unterminated, the scanner yields -1 and the slice arithmetic duplicates
the prefix instead of leaving the document unchanged. -/
theorem c10_counterexample_remove_absent_key_edits_doc :
    remove_env_configmap_entry docC10bad envDev appExample keyK = .ok docC10mangled ∧
    docC10mangled ≠ docC10bad ∧
    noSubMatch (removeEntrySub keyK) docC10bad = true :=
  ⟨by rfl, by decide, by rfl⟩

/-- C10 amended: when the app block is absent, or when it is properly
brace-terminated and the removal pattern matches nowhere in the block
slice, remove returns the document unchanged, and the single-file pipeline
around it reports success once validation passes. -/
theorem c10_amended_remove_absent_key_noop :
    (∀ (content env app key : Doc),
      searchML (matchAppHeader env app) content = none →
      remove_env_configmap_entry content env app key = .ok content) ∧
    (∀ (content env app key : Doc) (mS mE b bend : Nat),
      searchML (matchAppHeader env app) content = some (mS, mE) →
      firstIndexFrom content mS '\x7b' = some b →
      find_block_end content (mS + b) = (bend : Int) →
      noSubMatch (removeEntrySub key) (pyslice content (mS : Int) ((bend : Int) + 1)) = true →
      remove_env_configmap_entry content env app key = .ok content ∧
      cue_edit_single_file content (fun d => remove_env_configmap_entry d env app key)
          (fun _ => true) = ({ file := content, backup := none }, 0)) := by
  constructor
  · intro content env app key h
    simp [remove_env_configmap_entry, h]
  · intro content env app key mS mE b bend h1 h2 h3 h4
    have hspec := find_block_end_spec content (mS + b)
    rcases hspec with hneg | ⟨j, hj, hj1, hj2, hj3⟩
    · rw [h3] at hneg
      exact absurd hneg (by omega)
    · rw [h3] at hj
      have hjb : bend = j := by exact_mod_cast hj
      subst hjb
      have hbound1 : mS ≤ content.length := by omega
      have hbound2 : bend + 1 ≤ content.length := by omega
      have hcast : (bend : Int) + 1 = ((bend + 1 : Nat) : Int) := by push_cast; ring
      have hslice : pyslice content (mS : Int) ((bend : Int) + 1)
          = (content.take (bend + 1)).drop mS := by
        rw [hcast, pyslice_natCast content mS (bend + 1) hbound1 hbound2]
      have hafter : pyslice content ((bend : Int) + 1) (content.length : Int)
          = content.drop (bend + 1) := by
        rw [hcast, pyslice_natCast content (bend + 1) content.length hbound2 (le_refl _),
          List.take_length]
      have hsub : globalSub (removeEntrySub key) ((content.take (bend + 1)).drop mS)
          = (content.take (bend + 1)).drop mS := by
        apply globalSub_id
        rw [← hslice]
        exact h4
      have main : remove_env_configmap_entry content env app key = .ok content := by
        simp only [remove_env_configmap_entry, h1, h2, h3]
        rw [hslice, hafter, hsub, take_slice_drop content mS (bend + 1) (by omega)]
      refine ⟨main, ?_⟩
      simp [cue_edit_single_file, main]

/-- Witness for the amended C10 at a concrete well-formed document whose
target block does not contain the removed key. -/
theorem c10_amended_witness :
    remove_env_configmap_entry docC10ok envDev appExample (("zz").toList) = .ok docC10ok ∧
    cue_edit_single_file docC10ok
        (fun d => remove_env_configmap_entry d envDev appExample (("zz").toList))
        (fun _ => true) = ({ file := docC10ok, backup := none }, 0) :=
  (c10_amended_remove_absent_key_noop.2) docC10ok envDev appExample (("zz").toList)
    0 36 35 106 (by rfl) (by rfl) (by rfl) (by rfl)

end CueEdit
